/-
  Verification of the pretty_j1939 decoding core (pretty_j1939/parse.py).

  The Python source is shallowly embedded below:
  - CAN payloads are bit sequences (`List Bool`), matching the source's use of
    `bitstring.BitString(message_data)` (bit 0 = most significant bit of byte 0).
  - Machine integers are `Nat`; the source never relies on fixed-width overflow
    in the embedded functions.
  - The floating-point scale/offset/range numbers from the signal database are
    embedded as rationals (`ℚ`); all properties proved are order/arithmetic
    facts that the source computes with the same formulas.
  - `get_spn_value` raising `ValueError` is embedded as the explicit result
    constructor `SpnResult.outOfRange`; returning `None` is
    `SpnResult.notAvailable`.
  - The reassembler's closure state (the four parallel dicts `new_pgn`,
    `new_data`, `new_packets`, `new_length`, always written together at the
    same key `sa`) is embedded as one map `Nat → Option Session` whose record
    fields are the four per-address values.
  - Python list subscript assignment (which accepts negative indices and
    raises `IndexError` out of bounds — caught and swallowed by the source's
    `try/except` around the write) is embedded by `pySet`, which performs the
    negative-index wrap and leaves the list unchanged out of bounds.
-/
import Mathlib

namespace PrettyJ1939

/-- Mask constants from the source (`DA_MASK`, `SA_MASK`, `PF_MASK`). -/
def DA_MASK : Nat := 0x0000FF00

def SA_MASK : Nat := 0x000000FF

def PF_MASK : Nat := 0x00FF0000

/-- Embedding of `parse_j1939_id(can_id)`: returns `(pgn, da, sa)`. -/
def parse_j1939_id (can_id : Nat) : Nat × Nat × Nat :=
  let sa := SA_MASK &&& can_id
  let pf := (PF_MASK &&& can_id) >>> 16
  let da := (DA_MASK &&& can_id) >>> 8
  if 240 ≤ pf then (pf * 256 + da, 0xFF, sa)
  else (pf * 256, da, sa)

/-- Embedding of `is_connection_management_message(message_id)`. -/
def is_connection_management_message (message_id : Nat) : Bool :=
  (message_id &&& PF_MASK) == 0x00EC0000

/-- Embedding of `is_data_transfer_message(message_id)`. -/
def is_data_transfer_message (message_id : Nat) : Bool :=
  (message_id &&& PF_MASK) == 0x00EB0000

/-- Embedding of `is_transport_message(message_id)`. -/
def is_transport_message (message_id : Nat) : Bool :=
  is_data_transfer_message message_id || is_connection_management_message message_id

/-- Embedding of `is_bam_cts_message(message_bytes)`: first payload byte is 32.
    (The source indexes `message_bytes[0]`; frames handed to it are 8 bytes.) -/
def is_bam_cts_message (message_bytes : List Nat) : Bool :=
  message_bytes.headD 0 == 32

/-! Bit-field extraction (`get_spn_bytes` and the `bitstring` operations it uses). -/

/-- Consecutive whole 8-bit groups of a bit sequence; a trailing group of
    fewer than 8 bits is not produced (it is handled separately by
    `byteswap`, as in `bitstring`'s `byteswap()` with the default format). -/
def splitBytes : List Bool → List (List Bool)
  | b0 :: b1 :: b2 :: b3 :: b4 :: b5 :: b6 :: b7 :: rest =>
      [b0, b1, b2, b3, b4, b5, b6, b7] :: splitBytes rest
  | _ => []

/-- Embedding of `BitString.byteswap()` with no arguments: the order of the
    whole bytes (the first `8 * (len / 8)` bits, in 8-bit groups) is reversed;
    any trailing bits beyond the last whole byte stay in place. -/
def byteswap (bits : List Bool) : List Bool :=
  (splitBytes bits).reverse.flatten ++ bits.drop (8 * (bits.length / 8))

/-- Big-endian unsigned integer value of a bit sequence
    (embedding of `BitString.uint`). -/
def bitsToNat (bits : List Bool) : Nat :=
  bits.foldl (fun acc b => 2 * acc + (if b then 1 else 0)) 0

/-- Layout metadata of one SPN as looked up from `j1939db["J1939SPNdb"]`:
    name, units, start/end bit, offset, resolution and operational range.
    The database's floating-point numbers are embedded as rationals. -/
structure SPNInfo where
  name : String
  units : String
  startBit : Nat
  endBit : Nat
  offset : ℚ
  resolution : ℚ
  operationalLow : ℚ
  operationalHigh : ℚ
  deriving DecidableEq, Repr

/-- Embedding of `get_spn_bytes(message_data, spn)` with the SPN's database
    row passed explicitly: slice bits `[start_bit, end_bit]` (inclusive, as a
    Python slice `[spn_start : spn_end + 1]`, which clips at the payload
    length) and byteswap the slice. -/
def get_spn_bytes (message_data : List Bool) (L : SPNInfo) : List Bool :=
  byteswap ((message_data.drop L.startBit).take (L.endBit + 1 - L.startBit))

/-- Embedding of Python's `str.lower()` as used on the units strings
    (character-by-character lowering; units strings are ASCII). -/
def pyLower (s : String) : String :=
  String.mk (s.toList.map Char.toLower)

/-- Embedding of `is_spn_bitencoded(spn_units)`. -/
def is_spn_bitencoded (spn_units : String) : Bool :=
  pyLower spn_units == "bit" || pyLower spn_units == "binary"

/-- Result of `get_spn_value`: `None` (field all ones), a numeric value, or
    the raised `ValueError` when range validation fails. -/
inductive SpnResult where
  | notAvailable : SpnResult
  | value : ℚ → SpnResult
  | outOfRange : SpnResult
  deriving DecidableEq, Repr

/-- Embedding of `get_spn_value(message_data, spn, validate)` with the SPN's
    database row passed explicitly (the source first looks up units, offset
    and resolution for `spn`, normalizing `scale <= 0` to `1`). -/
def get_spn_value (message_data : List Bool) (L : SPNInfo) (validate : Bool) : SpnResult :=
  let scale := if L.resolution ≤ 0 then 1 else L.resolution
  let cut_data := get_spn_bytes message_data L
  if cut_data.all (fun b => b) then
    SpnResult.notAvailable
  else if is_spn_bitencoded L.units then
    SpnResult.value (bitsToNat cut_data : ℚ)
  else
    let value := (bitsToNat cut_data : ℚ) * scale + L.offset
    if validate && (decide (value < L.operationalLow) || decide (L.operationalHigh < value)) then
      SpnResult.outOfRange
    else
      SpnResult.value value

/-! Signal database interface and the whole-message describer. -/

/-- The read-only signal database (`j1939db`) as seen by the describer:
    the SPN list of a PGN (`J1939PGNdb[pgn]["SPNs"]`, already sorted per the
    interface), each SPN's metadata row (`J1939SPNdb[spn]`), and the
    bit-decoding enumeration tables (`J1939BitDecodings`, where a missing
    SPN table or missing value key are both the absent case). -/
structure J1939DB where
  spn_list : Nat → List Nat
  spn_info : Nat → SPNInfo
  bit_decodings : Nat → Nat → Option String

/-- Embedding of `get_spn_list(pgn)`. -/
def get_spn_list (db : J1939DB) (pgn : Nat) : List Nat :=
  db.spn_list pgn

/-- Embedding of `get_spn_value(message_data, spn, validate)` looking up the
    SPN row in the database. -/
def get_spn_value_db (db : J1939DB) (message_data : List Bool) (spn : Nat)
    (validate : Bool) : SpnResult :=
  get_spn_value message_data (db.spn_info spn) validate

/-- Embedding of `get_spn_bytes(message_data, spn)` looking up the SPN row. -/
def get_spn_bytes_db (db : J1939DB) (message_data : List Bool) (spn : Nat) : List Bool :=
  get_spn_bytes message_data (db.spn_info spn)

/-- Embedding of `is_spn_numerical_values(spn)`. -/
def is_spn_numerical_values (db : J1939DB) (spn : Nat) : Bool :=
  !(["manufacturer determined", "byte", "", "request dependent", "ascii"].contains
      (pyLower (db.spn_info spn).units))

/-- Hexadecimal digit character for a nibble value. -/
def nibbleChar (n : Nat) : Char :=
  "0123456789abcdef".toList.getD n '0'

/-- Hexadecimal digit string of a bit sequence taken four bits at a time
    (used by `bitstring`'s string conversion when the length is a multiple
    of four). -/
def bitsToHexStr : List Bool → String
  | b0 :: b1 :: b2 :: b3 :: rest =>
      String.singleton (nibbleChar ((if b0 then 8 else 0) + (if b1 then 4 else 0) +
        (if b2 then 2 else 0) + (if b3 then 1 else 0))) ++ bitsToHexStr rest
  | _ => ""

/-- Embedding of `str(BitString)` as used by the `"%s"` renderings of raw
    SPN bytes: empty for the empty bit sequence, `0x…` when the length is a
    multiple of four, `0b…` otherwise. -/
def bitstring_str (bits : List Bool) : String :=
  if bits.length = 0 then ""
  else if bits.length % 4 = 0 then "0x" ++ bitsToHexStr bits
  else "0b" ++ String.mk (bits.map (fun b => if b then '1' else '0'))

/-- Python `int()` truncation toward zero of a rational. -/
def pyInt (v : ℚ) : Int :=
  Int.tdiv v.num (v.den : Int)

/-- Rendering of a numeric SPN value for `"%s"` interpolation. The source
    prints a Python float; the embedding prints the rational it computes
    with. No claim depends on the numeric text. -/
def ratStr (v : ℚ) : String :=
  toString v

/-- Embedding of `BitString.tobytes()` followed by `"%s"` rendering of the
    Python `bytes` object: the bit sequence is padded with zero bits to a
    byte boundary and each byte becomes one character. The `bytes` repr
    details (quoting/escapes) are abstracted; no claim depends on this text. -/
def bytesStr (bits : List Bool) : String :=
  String.mk ((splitBytes (bits ++ List.replicate ((8 - bits.length % 8) % 8) false)).map
    (fun byte => Char.ofNat (bitsToNat byte)))

/-- The body of `describe_message_data`'s per-SPN loop iteration as a pure
    function: `none` is the `continue` case (value unavailable and
    `include_na` unset), otherwise the `(spn_name, rendered text)` entry
    assigned into the description dict. The source's `except ValueError`
    around the body is the `SpnResult.outOfRange` case. -/
def describe_one_spn (db : J1939DB) (message_data : List Bool) (spn : Nat)
    (include_na : Bool) : Option (String × String) :=
  let spn_name := (db.spn_info spn).name
  let spn_units := (db.spn_info spn).units
  if is_spn_numerical_values db spn then
    match get_spn_value_db db message_data spn true with
    | SpnResult.outOfRange =>
        some (spn_name, bitstring_str (get_spn_bytes_db db message_data spn) ++ " (Out of range)")
    | SpnResult.notAvailable =>
        if include_na then some (spn_name, "N/A") else none
    | SpnResult.value v =>
        if is_spn_bitencoded spn_units then
          match db.bit_decodings spn (pyInt v).toNat with
          | some d => some (spn_name, toString (pyInt v) ++ " (" ++ d.trim ++ ")")
          | none => some (spn_name, toString (pyInt v) ++ " (Unknown)")
        else
          some (spn_name, ratStr v ++ " (" ++ spn_units ++ ")")
  else
    if pyLower spn_units == "request dependent" then
      some (spn_name, bitstring_str (get_spn_bytes_db db message_data spn) ++ " (" ++ spn_units ++ ")")
    else if pyLower spn_units == "ascii" then
      some (spn_name, bytesStr (get_spn_bytes_db db message_data spn))
    else
      some (spn_name, bitstring_str (get_spn_bytes_db db message_data spn))

/-- Python dict assignment `d[k] = v` on a dict embedded as an
    insertion-ordered association list: overwrite in place if the key is
    present, else append. -/
def dictSet (d : List (String × String)) (k v : String) : List (String × String) :=
  if d.any (fun p => p.1 == k) then
    d.map (fun p => if p.1 == k then (k, v) else p)
  else d ++ [(k, v)]

/-- One iteration of `describe_message_data`'s loop: run the body and assign
    its entry (if any) into the description dict. -/
def describe_step (db : J1939DB) (message_data : List Bool) (include_na : Bool)
    (description : List (String × String)) (spn : Nat) : List (String × String) :=
  match describe_one_spn db message_data spn include_na with
  | none => description
  | some (k, v) => dictSet description k v

/-- Embedding of `describe_message_data(message_id, message_data, include_na)`:
    decompose the id, then fold the per-SPN loop over the PGN's SPN list. -/
def describe_message_data (db : J1939DB) (message_id : Nat) (message_data : List Bool)
    (include_na : Bool) : List (String × String) :=
  (get_spn_list db (parse_j1939_id message_id).1).foldl
    (describe_step db message_data include_na) []

/-! The BAM transport reassembler (`get_bam_processor` / `process_for_bams`). -/

/-- One reassembly session for a source address: the values the source keeps
    in `new_pgn[sa]`, `new_length[sa]`, `new_packets[sa]` and `new_data[sa]`
    (the four dicts are always written together at the same key, so they are
    embedded as one record). -/
structure Session where
  pgn : Nat
  length : Nat
  packets : Nat
  data : List Nat
  deriving DecidableEq, Repr

/-- Pointwise update of the session table at one source address. -/
def updMap (f : Nat → Option Session) (k : Nat) (v : Option Session) :
    Nat → Option Session :=
  fun x => if x = k then v else f x

/-- Reading `message_bytes[i]` on a frame; frames reaching the reassembler
    carry 8 payload bytes, so the default is never exercised in the
    theorems below. -/
def pyGet (l : List Nat) (i : Nat) : Nat :=
  l.getD i 0

/-- Python list subscript assignment `l[i] = v` under the source's
    `try/except`: a negative index wraps from the end, an out-of-range index
    raises `IndexError`, which the source catches and swallows (the list is
    left unchanged). -/
def pySet (l : List Nat) (i : Int) (v : Nat) : List Nat :=
  let j : Int := if i < 0 then (l.length : Int) + i else i
  if 0 ≤ j ∧ j < (l.length : Int) then l.set j.toNat v else l

/-- The data-transfer write loop
    `for b, i in zip(message_bytes[1:], range(7)): new_data[sa][i + 7 * (message_bytes[0] - 1)] = b`:
    at most seven bytes of the frame tail are written at consecutive indices
    starting from `7 * (seq - 1)` (computed in `Int`, as Python does). -/
def dtWrites (data : List Nat) (tail : List Nat) (seq : Nat) : List Nat :=
  ((tail.take 7).enum).foldl
    (fun d ib => pySet d ((ib.1 : Int) + 7 * ((seq : Int) - 1)) ib.2) data

/-- Embedding of one call of the closure `process_for_bams(message_bytes,
    message_id, sa, timestamp)`: the captured state is passed in and the new
    state is returned, together with the arguments of the
    `process_bam_found(data_bytes, sa, pgn, timestamp)` callback invocation
    when one happens. -/
def process_for_bams {τ : Type} (st : Nat → Option Session)
    (message_bytes : List Nat) (message_id sa : Nat) (timestamp : τ) :
    (Nat → Option Session) × Option (List Nat × Nat × Nat × τ) :=
  if is_connection_management_message message_id then
    if is_bam_cts_message message_bytes then
      let pgn := (pyGet message_bytes 7) <<< 16 + (pyGet message_bytes 6) <<< 8 +
        pyGet message_bytes 5
      let len := (pyGet message_bytes 2) <<< 8 + pyGet message_bytes 1
      let packets := pyGet message_bytes 3
      (updMap st sa (some ⟨pgn, len, packets, List.replicate (7 * packets) 0xFF⟩), none)
    else (st, none)
  else if is_data_transfer_message message_id then
    match st sa with
    | none => (st, none)
    | some s =>
        let seq := pyGet message_bytes 0
        let data1 := dtWrites s.data (message_bytes.drop 1) seq
        let st1 := updMap st sa (some { s with data := data1 })
        if seq = s.packets then
          (st1, some (data1.take s.length, sa, s.pgn, timestamp))
        else
          (st1, none)
  else (st, none)

/-! Supporting lemmas about bit-field extraction. -/

theorem mem_of_mem_splitBytes (l c : List Bool) (hc : c ∈ splitBytes l) :
    ∀ x ∈ c, x ∈ l := by
  induction l using splitBytes.induct with
  | case1 b0 b1 b2 b3 b4 b5 b6 b7 rest ih =>
      rw [splitBytes] at hc
      rcases List.mem_cons.1 hc with h | h
      · subst h
        intro x hx
        simp only [List.mem_cons, List.not_mem_nil, or_false] at hx
        rcases hx with h | h | h | h | h | h | h | h <;> simp [h]
      · intro x hx
        have := ih h x hx
        simp [this]
  | case2 l h =>
      rw [splitBytes] at hc
      · simp at hc
      · exact h

theorem byteswap_subset (l : List Bool) : ∀ x ∈ byteswap l, x ∈ l := by
  intro x hx
  rcases List.mem_append.1 hx with h | h
  · rcases List.mem_flatten.1 h with ⟨c, hc, hxc⟩
    exact mem_of_mem_splitBytes l c (List.mem_reverse.1 hc) x hxc
  · exact List.drop_subset _ _ h

/-- C2: a field whose every extracted bit (over the layout's
    `[start_bit, end_bit]` range) is set decodes to the absent result,
    whatever the resolution, offset, operational range and `validate` flag:
    the all-ones check precedes any scaling. -/
theorem spn_all_ones_not_available (md : List Bool) (L : SPNInfo) (validate : Bool)
    (h : ∀ b ∈ (md.drop L.startBit).take (L.endBit + 1 - L.startBit), b = true) :
    get_spn_value md L validate = SpnResult.notAvailable := by
  have hall : (get_spn_bytes md L).all (fun b => b) = true := by
    rw [List.all_eq_true]
    intro x hx
    rw [get_spn_bytes] at hx
    exact h x (byteswap_subset _ x hx)
  simp [get_spn_value, hall]

/-- C2 witness: an 8-bit all-ones payload over an 8-bit layout. -/
theorem spn_all_ones_not_available_witness :
    get_spn_value (List.replicate 8 true) ⟨"w", "kPa", 0, 7, 3, 2, 0, 100⟩ true =
      SpnResult.notAvailable :=
  spn_all_ones_not_available (List.replicate 8 true) ⟨"w", "kPa", 0, 7, 3, 2, 0, 100⟩ true
    (by decide)

/-- C8: a non-positive stored resolution is normalized to 1 before use, so a
    layout with resolution `r ≤ 0` decodes every payload exactly like the
    same layout with resolution 1, for either value of `validate`. -/
theorem spn_nonpos_resolution_as_one (md : List Bool) (validate : Bool)
    (L : SPNInfo) (r : ℚ) (hr : r ≤ 0) :
    get_spn_value md { L with resolution := r } validate =
      get_spn_value md { L with resolution := 1 } validate := by
  have h2 : ¬ ((1 : ℚ) ≤ 0) := by norm_num
  simp [get_spn_value, get_spn_bytes, hr, h2]

/-- C8 witness: resolution -3 versus resolution 1 on a concrete payload. -/
theorem spn_nonpos_resolution_as_one_witness :
    get_spn_value [false, true] ⟨"w", "kPa", 0, 1, 5, -3, 0, 100⟩ true =
      get_spn_value [false, true] ⟨"w", "kPa", 0, 1, 5, 1, 0, 100⟩ true :=
  spn_nonpos_resolution_as_one [false, true] true ⟨"w", "kPa", 0, 1, 5, 1, 0, 100⟩ (-3)
    (by norm_num)

/-- C10: a bit-encoded SPN (units "bit" or "binary", case-insensitive) never
    yields the out-of-range failure, and when its field is not all ones the
    raw unsigned integer of the extracted byte-swapped field is returned with
    no scale or offset applied. -/
theorem spn_bitencoded_skips_validation (md : List Bool) (L : SPNInfo) (validate : Bool)
    (hbe : is_spn_bitencoded L.units = true) :
    get_spn_value md L validate ≠ SpnResult.outOfRange ∧
      ((get_spn_bytes md L).all (fun b => b) = false →
        get_spn_value md L validate =
          SpnResult.value (bitsToNat (get_spn_bytes md L) : ℚ)) := by
  constructor
  · by_cases hall : (get_spn_bytes md L).all (fun b => b) = true <;>
      simp [get_spn_value, hall, hbe]
  · intro hall
    simp [get_spn_value, hall, hbe]

/-- C10 witness: a "Bit" SPN whose scaled value would be far out of range. -/
theorem spn_bitencoded_skips_validation_witness :
    get_spn_value [true, false] ⟨"w", "Bit", 0, 1, 1000, 1, 0, 1⟩ true ≠
        SpnResult.outOfRange ∧
      ((get_spn_bytes [true, false] ⟨"w", "Bit", 0, 1, 1000, 1, 0, 1⟩).all (fun b => b) = false →
        get_spn_value [true, false] ⟨"w", "Bit", 0, 1, 1000, 1, 0, 1⟩ true =
          SpnResult.value (bitsToNat (get_spn_bytes [true, false] ⟨"w", "Bit", 0, 1, 1000, 1, 0, 1⟩) : ℚ)) :=
  spn_bitencoded_skips_validation [true, false] ⟨"w", "Bit", 0, 1, 1000, 1, 0, 1⟩ true
    (by decide)

/-- The physical value the source computes for a non-bit-encoded SPN:
    `cut_data.uint * scale + offset` with the non-positive-resolution
    normalization. -/
def physical_value (md : List Bool) (L : SPNInfo) : ℚ :=
  (bitsToNat (get_spn_bytes md L) : ℚ) * (if L.resolution ≤ 0 then 1 else L.resolution) +
    L.offset

/-- C4 counterexample: for a bit-encoded SPN ("bit" units) the claimed
    equivalence "fails with OutOfRange iff raw*scale+offset is outside
    [operational_low, operational_high]" is false: the field 0b0 decodes to
    value 0, outside the range [10, 20], yet no failure occurs. -/
theorem spn_validation_claim_counterexample :
    ¬ (get_spn_value [false] ⟨"s", "bit", 0, 0, 0, 1, 10, 20⟩ true = SpnResult.outOfRange ↔
        (physical_value [false] ⟨"s", "bit", 0, 0, 0, 1, 10, 20⟩ < 10 ∨
          (20 : ℚ) < physical_value [false] ⟨"s", "bit", 0, 0, 0, 1, 10, 20⟩)) := by
  intro h
  have h2 : physical_value [false] (⟨"s", "bit", 0, 0, 0, 1, 10, 20⟩ : SPNInfo) < 10 := by
    norm_num [physical_value, get_spn_bytes, byteswap, splitBytes, bitsToNat]
  have h3 := h.2 (Or.inl h2)
  have h1 : get_spn_value [false] (⟨"s", "bit", 0, 0, 0, 1, 10, 20⟩ : SPNInfo) true =
      SpnResult.value ((0 : Nat) : ℚ) := by
    have hbe : is_spn_bitencoded "bit" = true := by decide
    simp [get_spn_value, get_spn_bytes, byteswap, splitBytes, bitsToNat, hbe]
  rw [h1] at h3
  simp at h3

/-- C4 (amended to non-bit-encoded SPNs): for a payload and a
    non-bit-encoded SPN whose extracted field is not all ones, validation
    fails with OutOfRange exactly when the physical value
    `raw_uint * scale + offset` lies strictly outside
    `[operational_low, operational_high]`; otherwise that physical value is
    returned. -/
theorem spn_validation_out_of_range (md : List Bool) (L : SPNInfo)
    (hna : (get_spn_bytes md L).all (fun b => b) = false)
    (hbe : is_spn_bitencoded L.units = false) :
    (get_spn_value md L true = SpnResult.outOfRange ↔
        (physical_value md L < L.operationalLow ∨
          L.operationalHigh < physical_value md L)) ∧
      (L.operationalLow ≤ physical_value md L ∧
          physical_value md L ≤ L.operationalHigh →
        get_spn_value md L true = SpnResult.value (physical_value md L)) := by
  have key : get_spn_value md L true =
      if physical_value md L < L.operationalLow ∨ L.operationalHigh < physical_value md L
      then SpnResult.outOfRange else SpnResult.value (physical_value md L) := by
    rw [show physical_value md L =
        (bitsToNat (get_spn_bytes md L) : ℚ) *
          (if L.resolution ≤ 0 then 1 else L.resolution) + L.offset from rfl]
    simp only [get_spn_value, hna, hbe, Bool.false_eq_true, if_false, Bool.true_and]
    by_cases hout :
        (bitsToNat (get_spn_bytes md L) : ℚ) *
            (if L.resolution ≤ 0 then 1 else L.resolution) + L.offset < L.operationalLow ∨
          L.operationalHigh <
            (bitsToNat (get_spn_bytes md L) : ℚ) *
              (if L.resolution ≤ 0 then 1 else L.resolution) + L.offset
    · have hb : (decide ((bitsToNat (get_spn_bytes md L) : ℚ) *
            (if L.resolution ≤ 0 then 1 else L.resolution) + L.offset < L.operationalLow) ||
          decide (L.operationalHigh <
            (bitsToNat (get_spn_bytes md L) : ℚ) *
              (if L.resolution ≤ 0 then 1 else L.resolution) + L.offset)) = true := by
        simp only [Bool.or_eq_true, decide_eq_true_eq]
        exact hout
      rw [hb, if_pos rfl, if_pos hout]
    · have hb : (decide ((bitsToNat (get_spn_bytes md L) : ℚ) *
            (if L.resolution ≤ 0 then 1 else L.resolution) + L.offset < L.operationalLow) ||
          decide (L.operationalHigh <
            (bitsToNat (get_spn_bytes md L) : ℚ) *
              (if L.resolution ≤ 0 then 1 else L.resolution) + L.offset)) = false := by
        rw [not_or] at hout
        simp only [Bool.or_eq_false_iff, decide_eq_false_iff_not]
        exact hout
      rw [hb, if_neg Bool.false_ne_true, if_neg hout]
  rw [key]
  constructor
  · by_cases hout :
        physical_value md L < L.operationalLow ∨ L.operationalHigh < physical_value md L
    · rw [if_pos hout]
      exact iff_of_true rfl hout
    · rw [if_neg hout]
      exact iff_of_false (by simp) hout
  · intro hin
    rw [if_neg (not_or.2 ⟨not_lt.2 hin.1, not_lt.2 hin.2⟩)]

/-- C4 witness: a numeric SPN whose value 0 lies below the range [10, 20]
    fails, and one inside the range is returned. -/
theorem spn_validation_out_of_range_witness :
    (get_spn_value [false] ⟨"s", "kPa", 0, 0, 0, 1, 10, 20⟩ true = SpnResult.outOfRange ↔
        (physical_value [false] ⟨"s", "kPa", 0, 0, 0, 1, 10, 20⟩ < 10 ∨
          (20 : ℚ) < physical_value [false] ⟨"s", "kPa", 0, 0, 0, 1, 10, 20⟩)) ∧
      ((10 : ℚ) ≤ physical_value [false] ⟨"s", "kPa", 0, 0, 0, 1, 10, 20⟩ ∧
          physical_value [false] ⟨"s", "kPa", 0, 0, 0, 1, 10, 20⟩ ≤ 20 →
        get_spn_value [false] ⟨"s", "kPa", 0, 0, 0, 1, 10, 20⟩ true =
          SpnResult.value (physical_value [false] ⟨"s", "kPa", 0, 0, 0, 1, 10, 20⟩)) :=
  spn_validation_out_of_range [false] ⟨"s", "kPa", 0, 0, 0, 1, 10, 20⟩ (by decide) (by decide)

/-! Identifier decomposition arithmetic. -/

theorem and_mask_255 (x : Nat) : 255 &&& x = x % 256 := by
  rw [Nat.and_comm]
  have h := Nat.and_pow_two_sub_one_eq_mod x 8
  norm_num at h
  exact h

theorem mask_shift_byte (x k : Nat) :
    (((2 ^ 8 - 1) <<< k) &&& x) >>> k = x / 2 ^ k % 256 := by
  have h : x / 2 ^ k % 256 = (x >>> k) &&& (2 ^ 8 - 1) := by
    rw [Nat.and_pow_two_sub_one_eq_mod, Nat.shiftRight_eq_div_pow]
  rw [h]
  apply Nat.eq_of_testBit_eq
  intro i
  simp only [Nat.testBit_shiftRight, Nat.testBit_and, Nat.testBit_shiftLeft,
    Nat.testBit_two_pow_sub_one]
  by_cases hk : k ≤ k + i
  · simp [hk, Nat.add_sub_cancel_left, Bool.and_comm]
  · omega

theorem pf_mask_eq (x : Nat) : (PF_MASK &&& x) >>> 16 = x / 65536 % 256 := by
  have h : PF_MASK = (2 ^ 8 - 1) <<< 16 := by decide
  rw [h, mask_shift_byte]
  norm_num

theorem da_mask_eq (x : Nat) : (DA_MASK &&& x) >>> 8 = x / 256 % 256 := by
  have h : DA_MASK = (2 ^ 8 - 1) <<< 8 := by decide
  rw [h, mask_shift_byte]
  norm_num

/-- C3: `parse_j1939_id` computes sa as the identifier's low byte, pf as its
    third byte and da_raw as its middle byte; when pf ≥ 240 it yields
    `pgn = pf*256 + da_raw` with da forced to 255, and when pf < 240 it
    yields `pgn = pf*256` with da equal to the middle byte, totally (no
    error case) for every input. -/
theorem parse_j1939_id_bytes (can_id : Nat) :
    (240 ≤ can_id / 65536 % 256 ∧
        parse_j1939_id can_id =
          ((can_id / 65536 % 256) * 256 + can_id / 256 % 256, 255, can_id % 256)) ∨
      (can_id / 65536 % 256 < 240 ∧
        parse_j1939_id can_id =
          ((can_id / 65536 % 256) * 256, can_id / 256 % 256, can_id % 256)) := by
  have hsa : SA_MASK &&& can_id = can_id % 256 := and_mask_255 can_id
  have hpf := pf_mask_eq can_id
  have hda := da_mask_eq can_id
  by_cases h : 240 ≤ can_id / 65536 % 256
  · left
    refine ⟨h, ?_⟩
    simp only [parse_j1939_id, hsa, hpf, hda, if_pos h]
  · right
    refine ⟨by omega, ?_⟩
    simp only [parse_j1939_id, hsa, hpf, hda, if_neg h]

/-! Supporting lemmas about the reassembler state machine. -/

theorem dt_not_cm (mid : Nat) (h : is_data_transfer_message mid = true) :
    is_connection_management_message mid = false := by
  simp only [is_data_transfer_message, beq_iff_eq] at h
  simp only [is_connection_management_message, beq_eq_false_iff_ne, ne_eq, h]
  omega

theorem updMap_same (f : Nat → Option Session) (k : Nat) (v : Option Session) :
    updMap f k v k = v := by
  simp [updMap]

theorem updMap_other (f : Nat → Option Session) (k : Nat) (v : Option Session)
    (x : Nat) (hx : x ≠ k) : updMap f k v x = f x := by
  simp [updMap, hx]

theorem updMap_self (f : Nat → Option Session) (k : Nat) (s : Session)
    (h : f k = some s) : updMap f k (some s) = f := by
  funext x
  by_cases hx : x = k
  · subst hx
    rw [updMap_same, h]
  · exact updMap_other f k (some s) x hx

theorem pySet_ge (l : List Nat) (i : Int) (v : Nat) (h : (l.length : Int) ≤ i) :
    pySet l i v = l := by
  have h0 : ¬ i < 0 := by omega
  simp only [pySet, if_neg h0]
  rw [if_neg]
  rintro ⟨-, h2⟩
  omega

theorem foldl_pySet_oob (seq : Nat) (l : List (Nat × Nat)) (d : List Nat)
    (h : (d.length : Int) ≤ 7 * ((seq : Int) - 1)) :
    l.foldl (fun d ib => pySet d ((ib.1 : Int) + 7 * ((seq : Int) - 1)) ib.2) d = d := by
  induction l with
  | nil => rfl
  | cons a l ih =>
      rw [List.foldl_cons, pySet_ge _ _ _ (by omega), ih]

theorem dtWrites_oob (data tail : List Nat) (seq packets : Nat)
    (hlen : data.length = 7 * packets) (hseq : packets < seq) :
    dtWrites data tail seq = data := by
  apply foldl_pySet_oob
  omega

/-- C5: malformed transport frames are tolerated: a data-transfer frame for a
    source address with no open session changes nothing and reports nothing,
    and one whose sequence number places its bytes beyond the allocated
    buffer (seq exceeds expected_packets) leaves the state unchanged (the
    offending bytes are dropped, no completion, other addresses untouched),
    with no exception reaching the caller in either case. -/
theorem bam_malformed_frames_tolerated {τ : Type} (st : Nat → Option Session)
    (mb : List Nat) (mid sa : Nat) (ts : τ) (s : Session)
    (hdt : is_data_transfer_message mid = true) :
    (st sa = none → process_for_bams st mb mid sa ts = (st, none)) ∧
      (st sa = some s → s.data.length = 7 * s.packets → s.packets < pyGet mb 0 →
        process_for_bams st mb mid sa ts = (st, none)) := by
  have hcm := dt_not_cm mid hdt
  constructor
  · intro h
    simp [process_for_bams, hcm, hdt, h]
  · intro hs hlen hseq
    have hw : dtWrites s.data (mb.drop 1) (pyGet mb 0) = s.data :=
      dtWrites_oob s.data (mb.drop 1) (pyGet mb 0) s.packets hlen hseq
    have hne : ¬ (pyGet mb 0 = s.packets) := by omega
    have heta : ({ s with data := s.data } : Session) = s := rfl
    simp only [process_for_bams, hcm, Bool.false_eq_true, if_false, hdt, if_true, hs,
      hw, heta, hne, ite_false, updMap_self st sa s hs]

/-- C5 witness: a data-transfer frame with no open session, and one whose
    sequence number 9 exceeds the single expected packet of an open session. -/
theorem bam_malformed_frames_tolerated_witness :
    (process_for_bams (fun _ => none) [1, 9, 9, 9, 9, 9, 9, 9] 0x00EB0000 3 (0 : Nat) =
        ((fun _ => none), none)) ∧
      (process_for_bams
          (updMap (fun _ => none) 0 (some ⟨4608, 7, 1, List.replicate 7 0xFF⟩))
          [9, 1, 2, 3, 4, 5, 6, 7] 0x00EB0000 0 (0 : Nat) =
        (updMap (fun _ => none) 0 (some ⟨4608, 7, 1, List.replicate 7 0xFF⟩), none)) :=
  ⟨(bam_malformed_frames_tolerated (fun _ => none) [1, 9, 9, 9, 9, 9, 9, 9] 0x00EB0000 3
      (0 : Nat) ⟨4608, 7, 1, List.replicate 7 0xFF⟩ (by decide)).1 rfl,
    (bam_malformed_frames_tolerated
      (updMap (fun _ => none) 0 (some ⟨4608, 7, 1, List.replicate 7 0xFF⟩))
      [9, 1, 2, 3, 4, 5, 6, 7] 0x00EB0000 0 (0 : Nat) ⟨4608, 7, 1, List.replicate 7 0xFF⟩
      (by decide)).2 (updMap_same _ _ _) (by decide) (by decide)⟩

/-- C6: a BAM connection-management frame (control byte 32) for a source
    address unconditionally installs a fresh session parsed from the frame
    (pgn from bytes 7/6/5, total length from bytes 2/1, packet count from
    byte 3, buffer of 7*packets sentinel 0xFF bytes), silently discarding
    whatever session that address had, with no emission and no effect on any
    other address. -/
theorem bam_new_session_overwrites {τ : Type} (st : Nat → Option Session)
    (mb : List Nat) (mid sa : Nat) (ts : τ)
    (hcm : is_connection_management_message mid = true)
    (hbam : is_bam_cts_message mb = true) :
    (process_for_bams st mb mid sa ts).1 sa =
        some ⟨(pyGet mb 7) <<< 16 + (pyGet mb 6) <<< 8 + pyGet mb 5,
          (pyGet mb 2) <<< 8 + pyGet mb 1, pyGet mb 3,
          List.replicate (7 * pyGet mb 3) 0xFF⟩ ∧
      (process_for_bams st mb mid sa ts).2 = none ∧
      ∀ x, x ≠ sa → (process_for_bams st mb mid sa ts).1 x = st x := by
  refine ⟨?_, ?_, ?_⟩
  · simp [process_for_bams, hcm, hbam, updMap_same]
  · simp [process_for_bams, hcm, hbam]
  · intro x hx
    simp [process_for_bams, hcm, hbam, updMap_other st sa _ x hx]

/-- C6 witness: a second BAM for address 5 replaces an accumulating session. -/
theorem bam_new_session_overwrites_witness :
    (process_for_bams (updMap (fun _ => none) 5 (some ⟨1, 14, 2, List.replicate 14 1⟩))
          [32, 7, 0, 1, 0xBB, 0xCC, 0x0A, 0] 0x00EC0000 5 (0 : Nat)).1 5 =
        some ⟨(0 : Nat) <<< 16 + (0x0A : Nat) <<< 8 + 0xCC, (0 : Nat) <<< 8 + 7, 1,
          List.replicate (7 * 1) 0xFF⟩ ∧
      (process_for_bams (updMap (fun _ => none) 5 (some ⟨1, 14, 2, List.replicate 14 1⟩))
          [32, 7, 0, 1, 0xBB, 0xCC, 0x0A, 0] 0x00EC0000 5 (0 : Nat)).2 = none ∧
      ∀ x, x ≠ 5 →
        (process_for_bams (updMap (fun _ => none) 5 (some ⟨1, 14, 2, List.replicate 14 1⟩))
            [32, 7, 0, 1, 0xBB, 0xCC, 0x0A, 0] 0x00EC0000 5 (0 : Nat)).1 x =
          updMap (fun _ => none) 5 (some ⟨1, 14, 2, List.replicate 14 1⟩) x :=
  bam_new_session_overwrites (updMap (fun _ => none) 5 (some ⟨1, 14, 2, List.replicate 14 1⟩))
    [32, 7, 0, 1, 0xBB, 0xCC, 0x0A, 0] 0x00EC0000 5 (0 : Nat) (by decide) (by decide)

/-- C1 counterexample: a one-packet BAM session for source address 0
    completes (the callback is invoked with the truncated buffer), yet the
    claimed clearing does not happen: the session entry for address 0 is
    still present afterwards, so the address is not returned to Idle. -/
theorem bam_completion_clears_counterexample :
    ((process_for_bams
          (process_for_bams (fun _ => none) [32, 7, 0, 1, 0xFF, 0xBB, 0xCC, 0x0A]
            0x00EC0000 0 (0 : Nat)).1
          [1, 10, 20, 30, 40, 50, 60, 70] 0x00EB0000 0 (1 : Nat)).2 =
        some ([10, 20, 30, 40, 50, 60, 70], 0, 0x0ACCBB, 1)) ∧
      ((process_for_bams
          (process_for_bams (fun _ => none) [32, 7, 0, 1, 0xFF, 0xBB, 0xCC, 0x0A]
            0x00EC0000 0 (0 : Nat)).1
          [1, 10, 20, 30, 40, 50, 60, 70] 0x00EB0000 0 (1 : Nat)).1 0 ≠ none) := by
  constructor
  · decide
  · decide

/-- C1 (amended): when the final-sequence data-transfer frame arrives
    (`seq == expected_packets`), the reassembler truncates the updated buffer
    to `total_length` bytes and invokes the completion callback with
    (truncated buffer, source address, session pgn, timestamp); it does not
    clear the session: the entry for that source address stays in the table
    with the written buffer. -/
theorem bam_completion_emits_and_retains {τ : Type} (st : Nat → Option Session)
    (mb : List Nat) (mid sa : Nat) (ts : τ) (s : Session)
    (hdt : is_data_transfer_message mid = true)
    (hs : st sa = some s) (hseq : pyGet mb 0 = s.packets) :
    (process_for_bams st mb mid sa ts).2 =
        some ((dtWrites s.data (mb.drop 1) s.packets).take s.length, sa, s.pgn, ts) ∧
      (process_for_bams st mb mid sa ts).1 sa =
        some { s with data := dtWrites s.data (mb.drop 1) s.packets } := by
  have hcm := dt_not_cm mid hdt
  constructor
  · simp [process_for_bams, hcm, hdt, hs, hseq]
  · simp [process_for_bams, hcm, hdt, hs, hseq, updMap_same]

/-- C1 witness: the final frame of a one-packet session emits the truncated
    payload and the session entry remains. -/
theorem bam_completion_emits_and_retains_witness :
    (process_for_bams (updMap (fun _ => none) 0 (some ⟨0x0ACCBB, 7, 1, List.replicate 7 0xFF⟩))
          [1, 10, 20, 30, 40, 50, 60, 70] 0x00EB0000 0 (1 : Nat)).2 =
        some ((dtWrites (List.replicate 7 0xFF) [10, 20, 30, 40, 50, 60, 70] 1).take 7, 0,
          0x0ACCBB, 1) ∧
      (process_for_bams (updMap (fun _ => none) 0 (some ⟨0x0ACCBB, 7, 1, List.replicate 7 0xFF⟩))
          [1, 10, 20, 30, 40, 50, 60, 70] 0x00EB0000 0 (1 : Nat)).1 0 =
        some ⟨0x0ACCBB, 7, 1, dtWrites (List.replicate 7 0xFF) [10, 20, 30, 40, 50, 60, 70] 1⟩ :=
  bam_completion_emits_and_retains
    (updMap (fun _ => none) 0 (some ⟨0x0ACCBB, 7, 1, List.replicate 7 0xFF⟩))
    [1, 10, 20, 30, 40, 50, 60, 70] 0x00EB0000 0 (1 : Nat)
    ⟨0x0ACCBB, 7, 1, List.replicate 7 0xFF⟩ (by decide) (updMap_same _ _ _) (by decide)

theorem exists_seven (B : List Nat) (h : B.length = 7) :
    ∃ x0 x1 x2 x3 x4 x5 x6, B = [x0, x1, x2, x3, x4, x5, x6] := by
  match B, h with
  | [x0, x1, x2, x3, x4, x5, x6], _ => exact ⟨x0, x1, x2, x3, x4, x5, x6, rfl⟩

theorem pySet_last7 (A y : List Nat) (hy : y.length = 7) (k : Int) (i : Nat)
    (hi : i < 7) (hk : k = (i : Int) - 7) (v : Nat) :
    pySet (A ++ y) k v = A ++ y.set i v := by
  have hlen : (A ++ y).length = A.length + 7 := by simp [hy]
  have hneg : k < 0 := by omega
  simp only [pySet, if_pos hneg]
  rw [if_pos (by constructor <;> omega)]
  have ht : (((A ++ y).length : Int) + k).toNat = A.length + i := by omega
  rw [ht, List.set_append_right _ _ (by omega), Nat.add_sub_cancel_left]

theorem dtWrites_seq_zero (A : List Nat)
    (x0 x1 x2 x3 x4 x5 x6 b1 b2 b3 b4 b5 b6 b7 : Nat) :
    dtWrites (A ++ [x0, x1, x2, x3, x4, x5, x6]) [b1, b2, b3, b4, b5, b6, b7] 0 =
      A ++ [b1, b2, b3, b4, b5, b6, b7] := by
  have e0 : pySet (A ++ [x0, x1, x2, x3, x4, x5, x6]) (-7) b1 =
      A ++ [b1, x1, x2, x3, x4, x5, x6] := by
    simpa using pySet_last7 A [x0, x1, x2, x3, x4, x5, x6] rfl (-7) 0 (by omega) (by norm_num) b1
  have e1 : pySet (A ++ [b1, x1, x2, x3, x4, x5, x6]) (-6) b2 =
      A ++ [b1, b2, x2, x3, x4, x5, x6] := by
    simpa using pySet_last7 A [b1, x1, x2, x3, x4, x5, x6] rfl (-6) 1 (by omega) (by norm_num) b2
  have e2 : pySet (A ++ [b1, b2, x2, x3, x4, x5, x6]) (-5) b3 =
      A ++ [b1, b2, b3, x3, x4, x5, x6] := by
    simpa using pySet_last7 A [b1, b2, x2, x3, x4, x5, x6] rfl (-5) 2 (by omega) (by norm_num) b3
  have e3 : pySet (A ++ [b1, b2, b3, x3, x4, x5, x6]) (-4) b4 =
      A ++ [b1, b2, b3, b4, x4, x5, x6] := by
    simpa using pySet_last7 A [b1, b2, b3, x3, x4, x5, x6] rfl (-4) 3 (by omega) (by norm_num) b4
  have e4 : pySet (A ++ [b1, b2, b3, b4, x4, x5, x6]) (-3) b5 =
      A ++ [b1, b2, b3, b4, b5, x5, x6] := by
    simpa using pySet_last7 A [b1, b2, b3, b4, x4, x5, x6] rfl (-3) 4 (by omega) (by norm_num) b5
  have e5 : pySet (A ++ [b1, b2, b3, b4, b5, x5, x6]) (-2) b6 =
      A ++ [b1, b2, b3, b4, b5, b6, x6] := by
    simpa using pySet_last7 A [b1, b2, b3, b4, b5, x5, x6] rfl (-2) 5 (by omega) (by norm_num) b6
  have e6 : pySet (A ++ [b1, b2, b3, b4, b5, b6, x6]) (-1) b7 =
      A ++ [b1, b2, b3, b4, b5, b6, b7] := by
    simpa using pySet_last7 A [b1, b2, b3, b4, b5, b6, x6] rfl (-1) 6 (by omega) (by norm_num) b7
  simp only [dtWrites]
  rw [show List.take 7 [b1, b2, b3, b4, b5, b6, b7] = [b1, b2, b3, b4, b5, b6, b7] from rfl]
  rw [show List.enum [b1, b2, b3, b4, b5, b6, b7] =
      [(0, b1), (1, b2), (2, b3), (3, b4), (4, b5), (5, b6), (6, b7)] from rfl]
  simp only [List.foldl]
  norm_num
  rw [e0, e1, e2, e3, e4, e5, e6]

/-- C9: a data-transfer frame whose sequence byte is 0 is not dropped: under
    Python negative indexing the write offset 7*(0-1) = -7 wraps to the tail
    of the buffer, so the frame's seven data bytes replace the last seven
    buffer positions, and no completion is emitted for that frame (the
    session stays open with the updated buffer). -/
theorem bam_seq_zero_writes_tail {τ : Type} (st : Nat → Option Session)
    (mid sa : Nat) (ts : τ) (s : Session) (b1 b2 b3 b4 b5 b6 b7 : Nat)
    (hdt : is_data_transfer_message mid = true)
    (hs : st sa = some s) (hp : 1 ≤ s.packets)
    (hlen : s.data.length = 7 * s.packets) :
    process_for_bams st [0, b1, b2, b3, b4, b5, b6, b7] mid sa ts =
      (updMap st sa (some { s with
        data := s.data.take (s.data.length - 7) ++ [b1, b2, b3, b4, b5, b6, b7] }), none) := by
  have hcm := dt_not_cm mid hdt
  have h7 : 7 ≤ s.data.length := by omega
  have hdroplen : (s.data.drop (s.data.length - 7)).length = 7 := by
    rw [List.length_drop]
    omega
  obtain ⟨x0, x1, x2, x3, x4, x5, x6, hx⟩ := exists_seven _ hdroplen
  have hw : dtWrites s.data [b1, b2, b3, b4, b5, b6, b7] 0 =
      s.data.take (s.data.length - 7) ++ [b1, b2, b3, b4, b5, b6, b7] := by
    conv_lhs => rw [← List.take_append_drop (s.data.length - 7) s.data, hx]
    exact dtWrites_seq_zero _ x0 x1 x2 x3 x4 x5 x6 b1 b2 b3 b4 b5 b6 b7
  have hne : ¬ ((0 : Nat) = s.packets) := by omega
  simp [process_for_bams, hcm, hdt, hs, pyGet, hne, hw]

/-- C9 witness: sequence byte 0 on a fresh two-packet session writes bytes
    1..7 into buffer positions 7..13 and emits nothing. -/
theorem bam_seq_zero_writes_tail_witness :
    process_for_bams (updMap (fun _ => none) 4 (some ⟨99, 11, 2, List.replicate 14 0xFF⟩))
        [0, 1, 2, 3, 4, 5, 6, 7] 0x00EB0000 4 (0 : Nat) =
      (updMap (updMap (fun _ => none) 4 (some ⟨99, 11, 2, List.replicate 14 0xFF⟩)) 4
        (some ⟨99, 11, 2,
          (List.replicate 14 0xFF).take ((List.replicate 14 0xFF : List Nat).length - 7) ++
            [1, 2, 3, 4, 5, 6, 7]⟩), none) :=
  bam_seq_zero_writes_tail (updMap (fun _ => none) 4 (some ⟨99, 11, 2, List.replicate 14 0xFF⟩))
    0x00EB0000 4 (0 : Nat) ⟨99, 11, 2, List.replicate 14 0xFF⟩ 1 2 3 4 5 6 7
    (by decide) (updMap_same _ _ _) (by decide) (by decide)

/-! Supporting lemmas about the whole-message describer. -/

theorem dictSet_any_key (d : List (String × String)) (k v k2 : String)
    (h : d.any (fun p => p.1 == k2) = true ∨ k2 = k) :
    (dictSet d k v).any (fun p => p.1 == k2) = true := by
  by_cases hp : d.any (fun p => p.1 == k) = true
  · simp only [dictSet, hp, if_true]
    rw [List.any_eq_true]
    rcases h with h | rfl
    · rcases List.any_eq_true.1 h with ⟨p, hpd, hpk⟩
      refine ⟨if p.1 == k then (k, v) else p, List.mem_map_of_mem _ hpd, ?_⟩
      by_cases hk : p.1 == k
      · rw [if_pos hk]
        have : p.1 = k := beq_iff_eq.1 hk
        simpa [← this] using hpk
      · rw [if_neg hk]
        exact hpk
    · rcases List.any_eq_true.1 hp with ⟨p, hpd, hpk⟩
      refine ⟨if p.1 == k2 then (k2, v) else p, List.mem_map_of_mem _ hpd, ?_⟩
      rw [if_pos hpk]
      simp
  · simp only [dictSet, hp, if_false]
    rw [List.any_eq_true]
    rcases h with h | rfl
    · rcases List.any_eq_true.1 h with ⟨p, hpd, hpk⟩
      exact ⟨p, List.mem_append_left _ hpd, hpk⟩
    · exact ⟨(k2, v), List.mem_append_right _ (List.mem_singleton.2 rfl), by simp⟩

theorem describe_fold_preserves (db : J1939DB) (md : List Bool) (incna : Bool)
    (spns : List Nat) (acc : List (String × String)) (k2 : String)
    (h : acc.any (fun p => p.1 == k2) = true) :
    ((spns.foldl (describe_step db md incna) acc).any (fun p => p.1 == k2)) = true := by
  induction spns generalizing acc with
  | nil => exact h
  | cons a rest ih =>
      rw [List.foldl_cons]
      apply ih
      cases hda : describe_one_spn db md a incna with
      | none => simpa only [describe_step, hda] using h
      | some kv =>
          obtain ⟨k, v⟩ := kv
          simp only [describe_step, hda]
          exact dictSet_any_key acc k v k2 (Or.inl h)

theorem describe_fold_adds (db : J1939DB) (md : List Bool) (incna : Bool)
    (spns : List Nat) (acc : List (String × String)) (spn : Nat) (k v : String)
    (hmem : spn ∈ spns) (hsome : describe_one_spn db md spn incna = some (k, v)) :
    ((spns.foldl (describe_step db md incna) acc).any (fun p => p.1 == k)) = true := by
  induction spns generalizing acc with
  | nil => cases hmem
  | cons a rest ih =>
      rw [List.foldl_cons]
      rcases List.mem_cons.1 hmem with rfl | hmem2
      · apply describe_fold_preserves
        simp only [describe_step, hsome]
        exact dictSet_any_key acc k v k (Or.inr rfl)
      · exact ih _ hmem2

/-- C7: when one SPN's decode raises the out-of-range condition, the
    whole-message describer renders that SPN with the fallback
    "raw bytes (Out of range)" entry and keeps decoding: every SPN of the
    PGN's list that produces an entry still has its key present in the
    output mapping. -/
theorem describe_out_of_range_fallback (db : J1939DB) (mid : Nat) (md : List Bool)
    (incna : Bool) (spn : Nat)
    (hnum : is_spn_numerical_values db spn = true)
    (hoor : get_spn_value_db db md spn true = SpnResult.outOfRange) :
    describe_one_spn db md spn incna =
        some ((db.spn_info spn).name,
          bitstring_str (get_spn_bytes_db db md spn) ++ " (Out of range)") ∧
      ∀ spn2 k v, spn2 ∈ get_spn_list db (parse_j1939_id mid).1 →
        describe_one_spn db md spn2 incna = some (k, v) →
        (describe_message_data db mid md incna).any (fun p => p.1 == k) = true := by
  constructor
  · simp [describe_one_spn, hnum, hoor]
  · intro spn2 k v hmem hsome
    exact describe_fold_adds db md incna _ [] spn2 k v hmem hsome

/-- Database fixture for the C7 witness: every PGN lists the single SPN 1,
    whose layout is a numeric "kPa" signal over bits 0..7 with operational
    range [10, 20]. -/
def dbW : J1939DB :=
  ⟨fun _ => [1], fun _ => ⟨"Name1", "kPa", 0, 7, 0, 1, 10, 20⟩, fun _ _ => none⟩

/-- C7 witness: the all-zero payload decodes SPN 1 to 0, below the range, so
    the describer emits the fallback entry and the key lands in the output. -/
theorem describe_out_of_range_fallback_witness :
    describe_one_spn dbW (List.replicate 8 false) 1 false =
        some ((dbW.spn_info 1).name,
          bitstring_str (get_spn_bytes_db dbW (List.replicate 8 false) 1) ++ " (Out of range)") ∧
      (describe_message_data dbW 0 (List.replicate 8 false) false).any
        (fun p => p.1 == (dbW.spn_info 1).name) = true := by
  have hoor : get_spn_value_db dbW (List.replicate 8 false) 1 true = SpnResult.outOfRange := by
    have hall : (get_spn_bytes (List.replicate 8 false)
        (⟨"Name1", "kPa", 0, 7, 0, 1, 10, 20⟩ : SPNInfo)).all (fun b => b) = false := by decide
    have hbe : is_spn_bitencoded "kPa" = false := by decide
    have hz : bitsToNat (get_spn_bytes (List.replicate 8 false)
        (⟨"Name1", "kPa", 0, 7, 0, 1, 10, 20⟩ : SPNInfo)) = 0 := by decide
    simp only [get_spn_value_db, dbW, get_spn_value, hall, hbe, hz, Bool.false_eq_true,
      if_false, Bool.true_and]
    norm_num
  have h := describe_out_of_range_fallback dbW 0 (List.replicate 8 false) false 1
    (by decide) hoor
  exact ⟨h.1, h.2 1 (dbW.spn_info 1).name _ (by decide) h.1⟩

end PrettyJ1939
